import Mathlib

/-!
Shallow embedding of the catalog navigation and resolution engine of
`abletonosc/browser.py` (class `BrowserHandler`), together with proofs about
its search, resolution, loading, preview and hotswap behaviour.

Browser items are modelled as finite ordered trees (`Node`), mirroring the
host's `BrowserItem` objects: a name, an ordered list of children, and the
`is_loadable` / `is_device` flags.  Handlers that invoke the host's mutating
`load_item` / `preview_item` operations are modelled by the node they pass to
that operation (`none` meaning: no host call is made and the handler returns
void).  Python string lowering and the substring test (`in`) are modelled
character-wise on the string's character list.
-/

mutual
/-- A browser item: name, ordered children, `is_loadable`, `is_device`. -/
inductive Node : Type where
  | mk : String → NodeList → Bool → Bool → Node
deriving DecidableEq
/-- Ordered list of browser items (children of a `Node`). -/
inductive NodeList : Type where
  | nil : NodeList
  | cons : Node → NodeList → NodeList
deriving DecidableEq
end

/-- Convert a `NodeList` to an ordinary list. -/
def NodeList.toList : NodeList → List Node
  | .nil => []
  | .cons x xs => x :: xs.toList

/-- Build a `NodeList` from an ordinary list. -/
def nlist : List Node → NodeList
  | [] => .nil
  | x :: xs => .cons x (nlist xs)

/-- The `name` attribute of a browser item. -/
def Node.name : Node → String
  | .mk n _ _ _ => n

/-- The `children` attribute of a browser item. -/
def Node.childList : Node → NodeList
  | .mk _ c _ _ => c

/-- The children of a browser item, as an ordinary list. -/
def Node.children (n : Node) : List Node :=
  n.childList.toList

/-- The `is_loadable` attribute of a browser item. -/
def Node.is_loadable : Node → Bool
  | .mk _ _ l _ => l

/-- The `is_device` attribute of a browser item. -/
def Node.is_device : Node → Bool
  | .mk _ _ _ d => d

/-- Python's `str.lower()`, modelled character-wise (ASCII case folding). -/
def pyLower (s : String) : String :=
  ⟨s.data.map Char.toLower⟩

/-- Whether `needle` occurs as a contiguous sublist of `haystack`. -/
def isSubList (needle : List Char) : List Char → Bool
  | [] => needle.isEmpty
  | c :: rest => needle.isPrefixOf (c :: rest) || isSubList needle rest

/-- Python's substring test `needle in haystack` on strings. -/
def pyIn (needle haystack : String) : Bool :=
  isSubList needle.data haystack.data

mutual
/-- Embedding of `_find_item_by_name(parent, name)`: recursively find a
browser item by case-insensitive exact name among the descendants of
`parent` (the parent itself is not considered). -/
def findItemByName : Node → String → Option Node
  | .mk _ cs _ _, name => findItemInChildren cs name
/-- The `for item in parent.children` loop of `_find_item_by_name`: check
each child for a name match, and only if it does not match, recurse into
its subtree before moving to the next child. -/
def findItemInChildren : NodeList → String → Option Node
  | .nil, _ => none
  | .cons item rest, name =>
    if pyLower item.name == pyLower name then some item
    else
      match (if item.childList = NodeList.nil then none else findItemByName item name) with
      | some found => some found
      | none => findItemInChildren rest name
end

mutual
/-- Embedding of `_get_first_loadable_child(item)`: the item itself if it is
loadable, otherwise the first loadable item found by walking the children,
recursing into each child's subtree before moving to the next child. -/
def getFirstLoadableChild : Node → Option Node
  | .mk nm cs ld dv =>
    if ld then some (.mk nm cs ld dv) else loadableInChildren cs
/-- The `for child in item.children` loop of `_get_first_loadable_child`. -/
def loadableInChildren : NodeList → Option Node
  | .nil => none
  | .cons child rest =>
    if child.is_loadable then some child
    else
      match getFirstLoadableChild child with
      | some found => some found
      | none => loadableInChildren rest
end

mutual
/-- Pre-order linearisation of a tree: the node itself, then the pre-order
linearisations of its children in order. -/
def Node.preorder : Node → List Node
  | .mk n cs l d => .mk n cs l d :: cs.preorder
/-- Concatenated pre-order linearisations of a list of trees. -/
def NodeList.preorder : NodeList → List Node
  | .nil => []
  | .cons x xs => x.preorder ++ xs.preorder
end

/-- The proper descendants of a node in pre-order (the node itself
excluded), i.e. the traversal order of `_find_item_by_name`. -/
def Node.descendants (n : Node) : List Node :=
  n.childList.preorder

/-- The proper descendants of `n` lying at depth at most `k` below `n`,
in pre-order (`k = 0` yields nothing; the children of `n` are at depth 1). -/
def belowUpTo : Nat → Node → List Node
  | 0, _ => []
  | k + 1, n => n.children.flatMap (fun c => c :: belowUpTo k c)

mutual
/-- Embedding of `_search_in_category(parent, query, category, depth)`:
depth-limited recursive collection of `(category, name)` pairs for each
descendant whose lowered name contains `query` as a substring.  `query` is
passed already lowered by `_search`. -/
def searchInCategory : Node → String → String → Nat → List (String × String)
  | .mk _ cs _ _, query, category, depth =>
    if depth > 3 then [] else searchChildrenLoop cs query category depth
/-- The `for item in parent.children` loop of `_search_in_category`: emit the
item's own match, then the matches of its subtree, then the later siblings. -/
def searchChildrenLoop : NodeList → String → String → Nat → List (String × String)
  | .nil, _, _, _ => []
  | .cons item rest, query, category, depth =>
    (if pyIn query (pyLower item.name) then [(category, item.name)] else []) ++
    ((if item.childList = NodeList.nil then [] else searchInCategory item query category (depth + 1)) ++
      searchChildrenLoop rest query category depth)
end

/-- The twelve fixed top-level category roots supplied by the host browser. -/
structure Browser where
  instruments : Node
  drums : Node
  sounds : Node
  audio_effects : Node
  midi_effects : Node
  max_for_live : Node
  plugins : Node
  clips : Node
  samples : Node
  packs : Node
  user_library : Node
  current_project : Node

/-- Shared resolution shape of the named load handlers (`_load_audio_effect`,
`_load_midi_effect`, `_load_sound`, `_load_sample`, `_load_clip`,
`_load_plugin`, `_load_max_device`): exact recursive find, then first
loadable descendant.  The result is the node passed to `browser.load_item`,
or `none` when the handler makes no host call and returns void. -/
def loadViaFind (root : Node) (name : String) : Option Node :=
  match findItemByName root name with
  | some item => getFirstLoadableChild item
  | none => none

/-- Node loaded by `_load_audio_effect(name)`. -/
def loadAudioEffectTarget (b : Browser) (name : String) : Option Node :=
  loadViaFind b.audio_effects name

/-- Node loaded by `_load_midi_effect(name)`. -/
def loadMidiEffectTarget (b : Browser) (name : String) : Option Node :=
  loadViaFind b.midi_effects name

/-- Node loaded by `_load_sound(name)`. -/
def loadSoundTarget (b : Browser) (name : String) : Option Node :=
  loadViaFind b.sounds name

/-- Node loaded by `_load_sample(name)`. -/
def loadSampleTarget (b : Browser) (name : String) : Option Node :=
  loadViaFind b.samples name

/-- Node loaded by `_load_clip(name)`. -/
def loadClipTarget (b : Browser) (name : String) : Option Node :=
  loadViaFind b.clips name

/-- Node loaded by `_load_plugin(name)`. -/
def loadPluginTarget (b : Browser) (name : String) : Option Node :=
  loadViaFind b.plugins name

/-- Node loaded by `_load_max_device(name)`. -/
def loadMaxDeviceTarget (b : Browser) (name : String) : Option Node :=
  loadViaFind b.max_for_live name

/-- The first-phase scan of `_load_instrument`: the first direct child of the
category root whose lowered name contains the lowered query as a substring. -/
def firstContainingChild : NodeList → String → Option Node
  | .nil, _ => none
  | .cons item rest, name =>
    if pyIn (pyLower name) (pyLower item.name) then some item
    else firstContainingChild rest name

/-- Node loaded by `_load_instrument(name)`: substring scan over the direct
children of `browser.instruments`, falling back to the exact recursive find,
then resolved through `_get_first_loadable_child`. -/
def loadInstrumentTarget (b : Browser) (name : String) : Option Node :=
  match firstContainingChild b.instruments.childList name with
  | some item => getFirstLoadableChild item
  | none =>
    match findItemByName b.instruments name with
    | some item => getFirstLoadableChild item
    | none => none

/-- Node loaded by `_load_drum_kit(name)` when a name argument is given: the
exactly-named node is loaded only if it is itself loadable. -/
def loadDrumKitNamed (b : Browser) (name : String) : Option Node :=
  match findItemByName b.drums name with
  | some item => if item.is_loadable then some item else none
  | none => none

/-- The preferred-name loop shared by the `_load_default_*` handlers: for
each preferred name in order, exact find then first loadable descendant,
returning the loaded node's name on first success; if every preferred name
fails, fall back to the first loadable descendant of the category root. -/
def loadDefault (root : Node) (preferred : List String) : Option String :=
  match preferred with
  | [] => (getFirstLoadableChild root).map Node.name
  | n :: rest =>
    match findItemByName root n with
    | some item =>
      match getFirstLoadableChild item with
      | some loadable => some loadable.name
      | none => loadDefault root rest
    | none => loadDefault root rest

/-- The curated preference list of `_load_default_instrument`. -/
def defaultInstrumentNames : List String :=
  ["Drift", "Analog", "Wavetable", "Operator", "Tension", "Collision"]

/-- Result of `_load_default_instrument`: the name of the loaded item, or
`none` when nothing was loaded and the handler returns void. -/
def loadDefaultInstrument (b : Browser) : Option String :=
  loadDefault b.instruments defaultInstrumentNames

/-- Node passed to `browser.preview_item` by `_preview_sample(name)`: the
first loadable descendant of the found item if there is one, otherwise the
found item itself; `none` when the find fails and no host call is made. -/
def previewSampleTarget (b : Browser) (name : String) : Option Node :=
  match findItemByName b.samples name with
  | some item =>
    match getFirstLoadableChild item with
    | some loadable => some loadable
    | none => some item
  | none => none

/-- Node loaded by `_load_user_preset(path)`: exact find in the user
library, then the first loadable descendant, falling back to the found item
itself when it is loadable. -/
def loadUserPresetTarget (b : Browser) (path : String) : Option Node :=
  match findItemByName b.user_library path with
  | some item =>
    match getFirstLoadableChild item with
    | some loadable => some loadable
    | none => if item.is_loadable then some item else none
  | none => none

/-- The fixed ordered category list scanned by `_search`. -/
def searchCategories (b : Browser) : List (String × Node) :=
  [("instruments", b.instruments), ("drums", b.drums), ("sounds", b.sounds),
   ("audio_effects", b.audio_effects), ("midi_effects", b.midi_effects),
   ("plugins", b.plugins), ("clips", b.clips), ("samples", b.samples)]

/-- Flatten `(category, name)` pairs into the alternating wire sequence. -/
def flattenPairs : List (String × String) → List String
  | [] => []
  | p :: rest => p.1 :: p.2 :: flattenPairs rest

/-- Embedding of `_search(query)`: lower the query, collect at most the first
10 matches per category over the fixed category list, truncate the
concatenation to 50 pairs and flatten to the alternating wire sequence. -/
def search (b : Browser) (query : String) : List String :=
  let q := pyLower query
  let results := (searchCategories b).flatMap (fun p => (searchInCategory p.2 q p.1 0).take 10)
  flattenPairs (results.take 50)

/-- A host device (hotswap target), identified by its name. -/
structure Device where
  devName : String
deriving DecidableEq

/-- A host track: an ordered list of devices. -/
structure Track where
  devices : List Device
deriving DecidableEq

/-- The host song: an ordered list of tracks. -/
structure Song where
  tracks : List Track
deriving DecidableEq

/-- Embedding of `_hotswap_start(track_index, device_index)`: index into the
song's tracks and the track's devices; on success set the hotswap target and
return the device name, on an indexing error leave the state unchanged and
return void. -/
def hotswapStart (song : Song) (st : Option Device) (ti di : Nat) :
    Option Device × Option String :=
  match song.tracks[ti]? with
  | none => (st, none)
  | some track =>
    match track.devices[di]? with
    | none => (st, none)
    | some device => (some device, some device.devName)

/-- The category loop of `_hotswap_load`: try `_find_item_by_name` on each
category root in order, the first category yielding a match wins. -/
def findFirstInCats (cats : List Node) (name : String) : Option Node :=
  match cats with
  | [] => none
  | c :: rest =>
    match findItemByName c name with
    | some item => some item
    | none => findFirstInCats rest name

/-- Embedding of `_hotswap_load(name)`: result is the new hotswap state, the
list of nodes passed to `browser.load_item`, and the returned name (`none`
meaning the handler returns void). With no hotswap target set, a warning is
logged and nothing happens. -/
def hotswapLoad (b : Browser) (st : Option Device) (name : String) :
    Option Device × List Node × Option String :=
  match st with
  | none => (none, [], none)
  | some tgt =>
    match findFirstInCats [b.instruments, b.audio_effects, b.midi_effects, b.sounds] name with
    | some item =>
      match getFirstLoadableChild item with
      | some loadable => (some tgt, [loadable], some loadable.name)
      | none => (some tgt, [], none)
    | none => (some tgt, [], none)

/-- Embedding of `_stop_preview()`: the host's `stop_preview` is always
invoked (one entry in the call list); if the host call succeeds the handler
returns `(True,)`, if it raises the exception is caught, logged, and the
handler returns void. `hostOk` models whether the host call succeeds. -/
def stopPreviewHandler (hostOk : Bool) : List Unit × Option Bool :=
  ([()], if hostOk then some true else none)

/-- A browser whose twelve category roots are all the given node (used to
build concrete test browsers). -/
def mkBrowser (n : Node) : Browser :=
  ⟨n, n, n, n, n, n, n, n, n, n, n, n⟩

/-- Concrete tree: a deep match, first in traversal order. -/
def cexC1deep : Node := .mk "x" .nil true false

/-- Concrete tree: a shallow match, later in sibling order. -/
def cexC1shallow : Node := .mk "x" .nil false false

/-- Concrete root whose first child hides a deep match for "x" while its
second child is itself a (shallower) match for "x". -/
def cexC1root : Node :=
  .mk "root" (nlist [.mk "a" (nlist [cexC1deep]) false false, cexC1shallow]) false false

/-- Concrete loadable grandchild below the first child. -/
def cexC2grand : Node := .mk "G" .nil true false

/-- Concrete non-loadable first child with a loadable grandchild. -/
def cexC2childA : Node := .mk "A" (nlist [cexC2grand]) false false

/-- Concrete loadable second child. -/
def cexC2childB : Node := .mk "B" .nil true false

/-- Concrete non-loadable root with children `[cexC2childA, cexC2childB]`. -/
def cexC2root : Node := .mk "X" (nlist [cexC2childA, cexC2childB]) false false

/-- Concrete matching node at depth 4 below the category root. -/
def cexC3deep : Node := .mk "bass kick" .nil true false

/-- Concrete category root whose only match for "bass" sits at depth 4. -/
def cexC3root : Node :=
  .mk "samples"
    (nlist [.mk "l1"
      (nlist [.mk "l2"
        (nlist [.mk "l3" (nlist [cexC3deep]) false false]) false false]) false false])
    false false

/-- Concrete category root with ten loadable children all matching "bass". -/
def wC4cat : Node :=
  .mk "cat" (nlist (List.replicate 10 (.mk "bass" .nil true false))) false false

/-- Concrete browser whose every category root is `wC4cat`. -/
def bC4 : Browser := mkBrowser wC4cat

/-- Concrete non-loadable leaf child of the default-instrument root. -/
def cexC5leaf : Node := .mk "Foo" .nil false false

/-- Concrete non-empty instruments root with no loadable descendant. -/
def cexC5root : Node := .mk "instruments" (nlist [cexC5leaf]) false false

/-- Concrete browser whose instruments root is `cexC5root`. -/
def bC5 : Browser := mkBrowser cexC5root

/-- Concrete exactly-named sample container with no loadable descendant. -/
def cexC6kick : Node := .mk "kick" (nlist [.mk "inner" .nil false false]) false false

/-- Concrete browser whose samples root contains only `cexC6kick`. -/
def bC6 : Browser := mkBrowser (.mk "samples" (nlist [cexC6kick]) false false)

/-- Concrete loadable instrument named "X". -/
def wC7item : Node := .mk "X" .nil true false

/-- Concrete browser whose category roots all contain only `wC7item`. -/
def bC7 : Browser := mkBrowser (.mk "instruments" (nlist [wC7item]) false false)

/-- Concrete hotswap device. -/
def dvW7 : Device := ⟨"Wavetable"⟩

/-- Concrete track holding `dvW7`. -/
def trW7 : Track := ⟨[dvW7]⟩

/-- Concrete song holding `trW7`. -/
def songW7 : Song := ⟨[trW7]⟩

/-- Concrete loadable preset inside the "808" drum-kit folder. -/
def cexC10child : Node := .mk "808 Kit.adg" .nil true false

/-- Concrete non-loadable drum-kit folder "808" with a loadable child. -/
def cexC10kit : Node := .mk "808" (nlist [cexC10child]) false false

/-- Concrete browser whose drums root contains only `cexC10kit`. -/
def bC10 : Browser := mkBrowser (.mk "drums" (nlist [cexC10kit]) false false)

/-- Unfolding of `Node.preorder` through the accessors. -/
theorem Node.preorder_eq (n : Node) : n.preorder = n :: n.childList.preorder := by
  cases n with
  | mk nm cs ld dv => rfl

mutual
/-- The recursive find equals the first case-insensitive name match in the
pre-order list of proper descendants. -/
theorem findItemByName_eq_find (n : Node) (name : String) :
    findItemByName n name =
      n.descendants.find? (fun m => pyLower m.name == pyLower name) := by
  cases n with
  | mk nm cs ld dv =>
    have h := findItemInChildren_eq_find cs name
    simpa [findItemByName, Node.descendants, Node.childList] using h
/-- The child loop of the recursive find equals the first case-insensitive
name match in the concatenated pre-order lists. -/
theorem findItemInChildren_eq_find (l : NodeList) (name : String) :
    findItemInChildren l name =
      l.preorder.find? (fun m => pyLower m.name == pyLower name) := by
  cases l with
  | nil => simp [findItemInChildren, NodeList.preorder]
  | cons item rest =>
    have hrest := findItemInChildren_eq_find rest name
    have hitem := findItemByName_eq_find item name
    have hin : (if item.childList = NodeList.nil then none else findItemByName item name) =
        item.childList.preorder.find? (fun m => pyLower m.name == pyLower name) := by
      by_cases hcs : item.childList = NodeList.nil
      · rw [if_pos hcs, hcs]
        simp [NodeList.preorder]
      · rw [if_neg hcs]
        exact hitem
    simp only [findItemInChildren]
    rw [hin, hrest, NodeList.preorder, Node.preorder_eq, List.cons_append]
    rw [List.find?_cons]
    by_cases h : pyLower item.name == pyLower name
    · rw [if_pos h, h]
    · rw [if_neg h]
      have hb : (pyLower item.name == pyLower name) = false := by
        simpa using h
      rw [hb, List.find?_append]
      cases item.childList.preorder.find? (fun m => pyLower m.name == pyLower name) with
      | none => simp
      | some f => simp
end

mutual
/-- The first-loadable resolution equals the node itself when loadable, and
otherwise the first loadable node in the pre-order list of descendants. -/
theorem getFirstLoadableChild_eq_find (n : Node) :
    getFirstLoadableChild n =
      (if n.is_loadable then some n else n.descendants.find? (fun m => m.is_loadable)) := by
  cases n with
  | mk nm cs ld dv =>
    have h := loadableInChildren_eq_find cs
    cases ld with
    | true => simp [getFirstLoadableChild, Node.is_loadable]
    | false =>
      simpa [getFirstLoadableChild, Node.is_loadable, Node.descendants, Node.childList] using h
/-- The child loop of the first-loadable resolution equals the first loadable
node in the concatenated pre-order lists. -/
theorem loadableInChildren_eq_find (l : NodeList) :
    loadableInChildren l = l.preorder.find? (fun m => m.is_loadable) := by
  cases l with
  | nil => simp [loadableInChildren, NodeList.preorder]
  | cons child rest =>
    have hrest := loadableInChildren_eq_find rest
    have hchild := getFirstLoadableChild_eq_find child
    simp only [loadableInChildren]
    rw [NodeList.preorder, Node.preorder_eq, List.cons_append, List.find?_cons]
    by_cases h : child.is_loadable
    · rw [if_pos h, h]
    · have hb : child.is_loadable = false := by
        simpa using h
      rw [hb] at hchild
      simp only [Bool.false_eq_true, if_false, Node.descendants] at hchild
      rw [if_neg h, hb, hchild, hrest, List.find?_append]
      cases child.childList.preorder.find? (fun m => m.is_loadable) with
      | none => simp
      | some f => simp
end

mutual
/-- Membership in a node's pre-order list is transitive through subtrees. -/
theorem mem_trans_node (n x y : Node) (hx : x ∈ n.preorder) (hy : y ∈ x.preorder) :
    y ∈ n.preorder := by
  cases n with
  | mk nm cs ld dv =>
    rw [Node.preorder_eq] at hx ⊢
    simp only [Node.childList] at hx ⊢
    rcases List.mem_cons.mp hx with h | h
    · subst h
      simpa [Node.preorder_eq, Node.childList] using hy
    · exact List.mem_cons_of_mem _ (mem_trans_list cs x y h hy)
/-- Membership in a forest's pre-order list is transitive through subtrees. -/
theorem mem_trans_list (l : NodeList) (x y : Node) (hx : x ∈ l.preorder) (hy : y ∈ x.preorder) :
    y ∈ l.preorder := by
  cases l with
  | nil => simp [NodeList.preorder] at hx
  | cons a b =>
    simp only [NodeList.preorder] at hx ⊢
    rcases List.mem_append.mp hx with h | h
    · exact List.mem_append.mpr (Or.inl (mem_trans_node a x y h hy))
    · exact List.mem_append.mpr (Or.inr (mem_trans_list b x y h hy))
end

/-- The substring scan over direct children equals the first child whose
lowered name contains the lowered query. -/
theorem firstContainingChild_eq_find (l : NodeList) (name : String) :
    firstContainingChild l name =
      l.toList.find? (fun m => pyIn (pyLower name) (pyLower m.name)) := by
  cases l with
  | nil => simp [firstContainingChild, NodeList.toList]
  | cons a b =>
    have ih := firstContainingChild_eq_find b name
    simp only [firstContainingChild, NodeList.toList]
    rw [List.find?_cons]
    by_cases h : pyIn (pyLower name) (pyLower a.name)
    · rw [if_pos h, h]
    · have hb : pyIn (pyLower name) (pyLower a.name) = false := by
        simpa using h
      rw [if_neg h, hb, ih]

mutual
/-- For entry depth at most 3, the category search equals the substring
filter over the descendants lying at depth at most `4 - depth`. -/
theorem searchInCategory_eq_below (n : Node) (q c : String) (d : Nat) (hd : d ≤ 3) :
    searchInCategory n q c d =
      (belowUpTo (4 - d) n).filterMap
        (fun m => if pyIn q (pyLower m.name) then some (c, m.name) else none) := by
  cases n with
  | mk nm cs ld dv =>
    have h := searchChildrenLoop_eq_below cs q c d hd
    have h4 : 4 - d = (3 - d) + 1 := by omega
    rw [h4]
    simp only [searchInCategory]
    rw [if_neg (by omega : ¬ d > 3), h]
    simp [belowUpTo, Node.children, Node.childList, NodeList.toList]
/-- For entry depth at most 3, the category-search child loop equals the
substring filter over the listed nodes and their descendants at depth at
most `3 - depth` below them. -/
theorem searchChildrenLoop_eq_below (l : NodeList) (q c : String) (d : Nat) (hd : d ≤ 3) :
    searchChildrenLoop l q c d =
      (l.toList.flatMap (fun m => m :: belowUpTo (3 - d) m)).filterMap
        (fun m => if pyIn q (pyLower m.name) then some (c, m.name) else none) := by
  cases l with
  | nil => simp [searchChildrenLoop, NodeList.toList]
  | cons item rest =>
    have hrest := searchChildrenLoop_eq_below rest q c d hd
    have hinner : (if item.childList = NodeList.nil then []
        else searchInCategory item q c (d + 1)) =
        (belowUpTo (3 - d) item).filterMap
          (fun m => if pyIn q (pyLower m.name) then some (c, m.name) else none) := by
      rcases Nat.lt_or_ge d 3 with hd3 | hd3
      · have hrec := searchInCategory_eq_below item q c (d + 1) (by omega)
        have he : 4 - (d + 1) = 3 - d := by omega
        rw [he] at hrec
        by_cases hcs : item.childList = NodeList.nil
        · rw [if_pos hcs]
          cases h3 : 3 - d with
          | zero => simp [belowUpTo]
          | succ k =>
            cases item with
            | mk nm2 cs2 ld2 dv2 =>
              simp only [Node.childList] at hcs
              subst hcs
              simp [belowUpTo, Node.children, Node.childList, NodeList.toList]
        · rw [if_neg hcs]
          exact hrec
      · have hd3e : d = 3 := by omega
        subst hd3e
        have hstop : searchInCategory item q c 4 = [] := by
          cases item with
          | mk nm2 cs2 ld2 dv2 => simp [searchInCategory]
        by_cases hcs : item.childList = NodeList.nil
        · rw [if_pos hcs]
          simp [belowUpTo]
        · rw [if_neg hcs, hstop]
          simp [belowUpTo]
    simp only [searchChildrenLoop, NodeList.toList]
    rw [hinner, hrest, List.flatMap_cons, List.filterMap_append, List.filterMap_cons]
    by_cases h : pyIn q (pyLower item.name)
    · simp [h]
    · simp [h]
end

/-- Taking `n + m` elements of an append whose left part has length `n`
keeps the whole left part and `m` elements of the right part. -/
theorem take_append_of_len {α : Type} (t r : List α) (n m : Nat) (ht : t.length = n) :
    (t ++ r).take (n + m) = t ++ r.take m := by
  rw [List.take_append_eq_append_take, ht, Nat.add_sub_cancel_left,
    List.take_of_length_le (by omega : t.length ≤ n + m)]

/-- The emptiness of a first-match search equals the failure of every
element to satisfy the predicate. -/
theorem find?_isNone_eq_all {α : Type} (p : α → Bool) (l : List α) :
    (l.find? p).isNone = l.all (fun x => !p x) := by
  induction l with
  | nil => rfl
  | cons a t ih =>
    rw [List.find?_cons]
    cases h : p a with
    | true => simp [h]
    | false => simp [h, ih]

/-- A `loadViaFind` resolution is the monadic composition of the exact find
with the first-loadable resolution. -/
theorem loadViaFind_eq_bind (root : Node) (name : String) :
    loadViaFind root name = (findItemByName root name).bind getFirstLoadableChild := by
  cases h : findItemByName root name with
  | none => simp [loadViaFind, h]
  | some it => simp [loadViaFind, h]

/-- The preferred-name fallback loop succeeds exactly when the category root
has a first loadable descendant. -/
theorem loadDefault_isSome (root : Node) (preferred : List String) :
    (loadDefault root preferred).isSome = (getFirstLoadableChild root).isSome := by
  induction preferred with
  | nil => simp [loadDefault]
  | cons n rest ih =>
    simp only [loadDefault]
    cases hfind : findItemByName root n with
    | none =>
      dsimp only
      exact ih
    | some item =>
      dsimp only
      cases hload : getFirstLoadableChild item with
      | none =>
        dsimp only
        exact ih
      | some l =>
        dsimp only
        have hlmem : l ∈ item.preorder := by
          rw [getFirstLoadableChild_eq_find] at hload
          by_cases hl : item.is_loadable
          · rw [if_pos hl] at hload
            injection hload with he
            rw [← he, Node.preorder_eq]
            exact List.mem_cons_self _ _
          · rw [if_neg hl] at hload
            have hm := List.mem_of_find?_eq_some hload
            rw [Node.preorder_eq]
            exact List.mem_cons_of_mem _ (by simpa [Node.descendants] using hm)
        have hlload : l.is_loadable = true := by
          rw [getFirstLoadableChild_eq_find] at hload
          by_cases hl : item.is_loadable
          · rw [if_pos hl] at hload
            injection hload with he
            rw [← he]
            exact hl
          · rw [if_neg hl] at hload
            exact List.find?_some hload
        have hitem_mem : item ∈ root.childList.preorder := by
          have hm := findItemByName_eq_find root n
          rw [hm] at hfind
          simpa [Node.descendants] using List.mem_of_find?_eq_some hfind
        have hlmem2 : l ∈ root.childList.preorder :=
          mem_trans_list root.childList item l hitem_mem hlmem
        rw [getFirstLoadableChild_eq_find]
        by_cases hr : root.is_loadable
        · simp [hr]
        · rw [if_neg hr]
          have hsome : (root.descendants.find? (fun m => m.is_loadable)).isSome := by
            rw [List.find?_isSome]
            exact ⟨l, by simpa [Node.descendants] using hlmem2, hlload⟩
          simp only [Option.isSome_some, Bool.true_eq]
          exact hsome

/-- Claim C1 is false as stated: on the concrete tree `cexC1root`,
`_find_item_by_name` returns the depth-2 node `cexC1deep` (not a child of
the root) although the root's own child `cexC1shallow` also matches "x"
case-insensitively, so the returned node is not of minimal depth among the
matches. -/
theorem C1_counterexample :
    findItemByName cexC1root "x" = some cexC1deep ∧
    cexC1shallow ∈ cexC1root.children ∧
    (pyLower cexC1shallow.name == pyLower "x") = true ∧
    cexC1deep ∉ cexC1root.children ∧
    cexC1deep ≠ cexC1shallow := by
  decide

/-- Claim C1 (amended): `_find_item_by_name(root, name)` returns exactly the
first node, in pre-order traversal order of the root's proper descendants
(host child order, root excluded), whose name equals the query
case-insensitively; it returns `none` exactly when no descendant matches.
Minimal depth among all matches is not guaranteed. -/
theorem C1_theorem (root : Node) (name : String) :
    findItemByName root name =
      root.descendants.find? (fun m => pyLower m.name == pyLower name) ∧
    (findItemByName root name).isNone =
      root.descendants.all (fun m => !(pyLower m.name == pyLower name)) := by
  refine ⟨findItemByName_eq_find root name, ?_⟩
  rw [findItemByName_eq_find root name]
  exact find?_isNone_eq_all _ _

/-- Claim C2 is false as stated: on the concrete tree `cexC2root`, a direct
child (`cexC2childB`) is loadable, yet `_get_first_loadable_child` returns
the grandchild `cexC2grand` found inside the earlier sibling's subtree — the
code does not scan all direct children before recursing. -/
theorem C2_counterexample :
    getFirstLoadableChild cexC2root = some cexC2grand ∧
    cexC2childB ∈ cexC2root.children ∧
    cexC2childB.is_loadable = true ∧
    cexC2root.is_loadable = false ∧
    cexC2grand ∉ cexC2root.children := by
  decide

/-- Claim C2 (amended): `_get_first_loadable_child(X)` returns `X` itself
whenever `X.is_loadable` is true, regardless of its children; otherwise it
returns the first loadable node in pre-order over `X`'s descendants (each
child's subtree is explored before the next sibling, not after all direct
children have been scanned); a non-loadable leaf yields `none`. -/
theorem C2_theorem (n : Node) :
    (n.is_loadable = true → getFirstLoadableChild n = some n) ∧
    getFirstLoadableChild n =
      (if n.is_loadable then some n else n.descendants.find? (fun m => m.is_loadable)) ∧
    (n.is_loadable = false → n.childList = NodeList.nil → getFirstLoadableChild n = none) := by
  refine ⟨?_, getFirstLoadableChild_eq_find n, ?_⟩
  · intro h
    rw [getFirstLoadableChild_eq_find n, if_pos h]
  · intro h hc
    rw [getFirstLoadableChild_eq_find n, if_neg (by simp [h]), Node.descendants, hc]
    simp [NodeList.preorder]

/-- Witness for C2: a loadable node with children resolves to itself, and a
non-loadable leaf resolves to nothing. -/
theorem C2_witness :
    getFirstLoadableChild (Node.mk "W" (nlist [cexC2childA]) true false) =
      some (Node.mk "W" (nlist [cexC2childA]) true false) ∧
    getFirstLoadableChild (Node.mk "L" NodeList.nil false false) = none :=
  ⟨(C2_theorem (Node.mk "W" (nlist [cexC2childA]) true false)).1 (by decide),
   (C2_theorem (Node.mk "L" NodeList.nil false false)).2.2 (by decide) (by decide)⟩

/-- Claim C3 is false as stated: on the concrete tree `cexC3root`, the only
match for "bass" sits at depth 4 = max_depth + 1 below the category root,
yet it appears in the search results — the code's `depth > 3` cutoff admits
nodes at depth 4 and stops only below depth 5. -/
theorem C3_counterexample :
    searchInCategory cexC3root "bass" "samples" 0 = [("samples", "bass kick")] ∧
    cexC3deep ∈ belowUpTo 4 cexC3root ∧
    cexC3deep ∉ belowUpTo 3 cexC3root := by
  decide

/-- Claim C3 (amended): `_search_in_category` with entry depth 0 returns
exactly the case-insensitive substring matches among the descendants at
depth at most 4 = max_depth + 1 relative to the category root, in pre-order;
nodes at depth 5 or deeper are never visited nor reported. -/
theorem C3_theorem (root : Node) (q c : String) :
    searchInCategory root q c 0 =
      (belowUpTo 4 root).filterMap
        (fun m => if pyIn q (pyLower m.name) then some (c, m.name) else none) := by
  simpa using searchInCategory_eq_below root q c 0 (by omega)

/-- Claim C4: `_search` scans exactly the fixed ordered category list
(instruments, drums, sounds, audio_effects, midi_effects, plugins, clips,
samples), keeps at most the first 10 matches per category in DFS order, and
truncates the concatenation to 50 pairs, so that when every category
contributes at least 10 matches the output is exactly the 50 pairs of the
first 5 categories, flattened into the alternating sequence
category, name, category, name, and so on. -/
theorem C4_theorem (b : Browser) (q : String)
    (h : ∀ p ∈ searchCategories b, 10 ≤ (searchInCategory p.2 (pyLower q) p.1 0).length) :
    search b q =
      flattenPairs ((searchInCategory b.instruments (pyLower q) "instruments" 0).take 10 ++
        ((searchInCategory b.drums (pyLower q) "drums" 0).take 10 ++
          ((searchInCategory b.sounds (pyLower q) "sounds" 0).take 10 ++
            ((searchInCategory b.audio_effects (pyLower q) "audio_effects" 0).take 10 ++
              (searchInCategory b.midi_effects (pyLower q) "midi_effects" 0).take 10)))) := by
  have h1 := h ("instruments", b.instruments) (by simp [searchCategories])
  have h2 := h ("drums", b.drums) (by simp [searchCategories])
  have h3 := h ("sounds", b.sounds) (by simp [searchCategories])
  have h4 := h ("audio_effects", b.audio_effects) (by simp [searchCategories])
  have h5 := h ("midi_effects", b.midi_effects) (by simp [searchCategories])
  have l1 : ((searchInCategory b.instruments (pyLower q) "instruments" 0).take 10).length = 10 :=
    List.length_take_of_le h1
  have l2 : ((searchInCategory b.drums (pyLower q) "drums" 0).take 10).length = 10 :=
    List.length_take_of_le h2
  have l3 : ((searchInCategory b.sounds (pyLower q) "sounds" 0).take 10).length = 10 :=
    List.length_take_of_le h3
  have l4 : ((searchInCategory b.audio_effects (pyLower q) "audio_effects" 0).take 10).length = 10 :=
    List.length_take_of_le h4
  have l5 : ((searchInCategory b.midi_effects (pyLower q) "midi_effects" 0).take 10).length = 10 :=
    List.length_take_of_le h5
  simp only [search, searchCategories, List.flatMap_cons, List.flatMap_nil, List.append_nil]
  congr 1
  rw [(by norm_num : (50 : Nat) = 10 + 40), take_append_of_len _ _ 10 40 l1,
    (by norm_num : (40 : Nat) = 10 + 30), take_append_of_len _ _ 10 30 l2,
    (by norm_num : (30 : Nat) = 10 + 20), take_append_of_len _ _ 10 20 l3,
    (by norm_num : (20 : Nat) = 10 + 10), take_append_of_len _ _ 10 10 l4,
    List.take_left' l5]

/-- Witness for C4: a browser whose eight searched categories each hold ten
matching children yields exactly the flattened first-five-categories output. -/
theorem C4_witness :
    search bC4 "bass" =
      flattenPairs ((searchInCategory bC4.instruments (pyLower "bass") "instruments" 0).take 10 ++
        ((searchInCategory bC4.drums (pyLower "bass") "drums" 0).take 10 ++
          ((searchInCategory bC4.sounds (pyLower "bass") "sounds" 0).take 10 ++
            ((searchInCategory bC4.audio_effects (pyLower "bass") "audio_effects" 0).take 10 ++
              (searchInCategory bC4.midi_effects (pyLower "bass") "midi_effects" 0).take 10)))) :=
  C4_theorem bC4 "bass" (by decide)

/-- Claim C5 is false as stated: the instruments root of `bC5` is non-empty
(it has one child) yet `_load_default_instrument` loads nothing and returns
void, because the category contains no loadable item. -/
theorem C5_counterexample :
    bC5.instruments.children ≠ [] ∧ loadDefaultInstrument bC5 = none := by
  decide

/-- Claim C5 (amended): a `load_default` operation (in particular
`_load_default_instrument`) succeeds exactly when the category root has a
first loadable descendant — non-emptiness alone is not enough; the two-tier
fallback (curated preferred names, then anything loadable under the root)
never misses a loadable item, and fails exactly on categories with no
loadable item at all. -/
theorem C5_theorem (root : Node) (preferred : List String) (b : Browser) :
    (loadDefault root preferred).isSome = (getFirstLoadableChild root).isSome ∧
    (loadDefaultInstrument b).isSome = (getFirstLoadableChild b.instruments).isSome :=
  ⟨loadDefault_isSome root preferred,
   loadDefault_isSome b.instruments defaultInstrumentNames⟩

/-- Claim C6 is false as stated: on browser `bC6` the named sample resolves
to a node with no loadable descendant, where `_preview_sample` passes the
found node itself to the host's preview while `_load_sample` performs no
host call — the two resolutions differ. -/
theorem C6_counterexample :
    previewSampleTarget bC6 "kick" ≠ loadSampleTarget bC6 "kick" := by
  decide

/-- Claim C6 (amended): `_preview_sample` resolves like `_load_sample`
whenever the exact find fails (both make no host call) and whenever the load
resolution succeeds (both pass the same node); but when the found item has
no loadable descendant, preview passes the found item itself to the host
while the load makes no host call and returns void. -/
theorem C6_theorem (b : Browser) (name : String) :
    (findItemByName b.samples name = none →
      previewSampleTarget b name = none ∧ loadSampleTarget b name = none) ∧
    (∀ n, loadSampleTarget b name = some n → previewSampleTarget b name = some n) ∧
    (∀ it, findItemByName b.samples name = some it → getFirstLoadableChild it = none →
      previewSampleTarget b name = some it ∧ loadSampleTarget b name = none) := by
  refine ⟨?_, ?_, ?_⟩
  · intro h
    simp [previewSampleTarget, loadSampleTarget, loadViaFind, h]
  · intro n h
    simp only [loadSampleTarget, loadViaFind] at h
    cases hf : findItemByName b.samples name with
    | none =>
      rw [hf] at h
      exact absurd h (by simp)
    | some it =>
      rw [hf] at h
      dsimp only at h
      simp [previewSampleTarget, hf, h]
  · intro it hf hl
    simp [previewSampleTarget, loadSampleTarget, loadViaFind, hf, hl]

/-- Witness for C6: on `bC6`, preview passes the found non-loadable
container to the host while the named load passes nothing. -/
theorem C6_witness :
    previewSampleTarget bC6 "kick" = some cexC6kick ∧ loadSampleTarget bC6 "kick" = none :=
  (C6_theorem bC6 "kick").2.2 cexC6kick (by decide) (by decide)

/-- Claim C7: `_hotswap_load` in the Idle state (no hotswap target) logs a
warning, issues no host call, returns void and leaves the state unchanged;
a successful `_hotswap_start` arms the session with the indexed device; an
armed `_hotswap_load` searches the fixed category list (instruments,
audio_effects, midi_effects, sounds) with the exact find — the first
category with a match winning — then resolves through the first loadable
descendant and loads it. -/
theorem C7_theorem (b : Browser) (song : Song) (name : String) (tr : Track) (dv : Device)
    (h0 : song.tracks[0]? = some tr) (h1 : tr.devices[0]? = some dv) :
    hotswapLoad b none name = (none, [], none) ∧
    hotswapStart song none 0 0 = (some dv, some dv.devName) ∧
    hotswapLoad b (some dv) name =
      (some dv,
        match (findFirstInCats [b.instruments, b.audio_effects, b.midi_effects, b.sounds]
            name).bind getFirstLoadableChild with
        | some loadable => ([loadable], some loadable.name)
        | none => ([], none)) ∧
    (∀ it, findItemByName b.instruments name = some it →
      findFirstInCats [b.instruments, b.audio_effects, b.midi_effects, b.sounds] name =
        some it) := by
  refine ⟨rfl, ?_, ?_, ?_⟩
  · simp [hotswapStart, h0, h1]
  · cases hf : findFirstInCats [b.instruments, b.audio_effects, b.midi_effects, b.sounds]
        name with
    | none => simp [hotswapLoad, hf]
    | some it =>
      cases hl : getFirstLoadableChild it with
      | none => simp [hotswapLoad, hf, hl]
      | some l => simp [hotswapLoad, hf, hl]
  · intro it hit
    simp [findFirstInCats, hit]

/-- Witness for C7: with one track holding one device, idle hotswap load is
a no-op, starting arms the device, and the armed load finds and loads the
loadable instrument "X". -/
theorem C7_witness :
    hotswapLoad bC7 none "X" = (none, [], none) ∧
    hotswapStart songW7 none 0 0 = (some dvW7, some "Wavetable") ∧
    hotswapLoad bC7 (some dvW7) "X" = (some dvW7, [wC7item], some "X") := by
  have h := C7_theorem bC7 songW7 "X" trW7 dvW7 (by decide) (by decide)
  refine ⟨h.1, h.2.1, ?_⟩
  have h3 := h.2.2.1
  rw [h3]
  decide

/-- Claim C8 is false as stated: when the host's stop operation raises, the
handler still makes the host call but returns void, not a success result. -/
theorem C8_counterexample :
    (stopPreviewHandler false).1 = [()] ∧ (stopPreviewHandler false).2 ≠ some true := by
  decide

/-- Claim C8 (amended): `_stop_preview` unconditionally invokes the host's
stop operation; it reports success exactly when the host call does not
raise, and on a host failure the exception is caught, logged, and the
handler returns void. -/
theorem C8_theorem (hostOk : Bool) :
    (stopPreviewHandler hostOk).1 = [()] ∧
    (stopPreviewHandler hostOk).2 = (if hostOk then some true else none) :=
  ⟨rfl, rfl⟩

/-- Claim C9: `_load_instrument` is two-phase — it loads through the first
direct child of the instruments root whose name contains the query as a
case-insensitive substring, and only when no direct child matches does it
fall back to the exact recursive find; both phases resolve through the
first loadable descendant.  Every other named load (audio effect, MIDI
effect, sound, sample, clip, plugin, Max device) uses only the exact
recursive find composed with the first-loadable resolution — no substring
matching. -/
theorem C9_theorem (b : Browser) (name : String) :
    loadInstrumentTarget b name =
      (match b.instruments.children.find? (fun m => pyIn (pyLower name) (pyLower m.name)) with
       | some item => getFirstLoadableChild item
       | none => (findItemByName b.instruments name).bind getFirstLoadableChild) ∧
    loadAudioEffectTarget b name =
      (findItemByName b.audio_effects name).bind getFirstLoadableChild ∧
    loadMidiEffectTarget b name =
      (findItemByName b.midi_effects name).bind getFirstLoadableChild ∧
    loadSoundTarget b name = (findItemByName b.sounds name).bind getFirstLoadableChild ∧
    loadSampleTarget b name = (findItemByName b.samples name).bind getFirstLoadableChild ∧
    loadClipTarget b name = (findItemByName b.clips name).bind getFirstLoadableChild ∧
    loadPluginTarget b name = (findItemByName b.plugins name).bind getFirstLoadableChild ∧
    loadMaxDeviceTarget b name =
      (findItemByName b.max_for_live name).bind getFirstLoadableChild ∧
    loadDrumKitNamed b name =
      (findItemByName b.drums name).bind
        (fun item => if item.is_loadable then some item else none) ∧
    loadUserPresetTarget b name =
      (findItemByName b.user_library name).bind
        (fun item => ((getFirstLoadableChild item).orElse
          (fun _ => if item.is_loadable then some item else none))) := by
  refine ⟨?_, loadViaFind_eq_bind _ _, loadViaFind_eq_bind _ _, loadViaFind_eq_bind _ _,
    loadViaFind_eq_bind _ _, loadViaFind_eq_bind _ _, loadViaFind_eq_bind _ _,
    loadViaFind_eq_bind _ _, ?_, ?_⟩
  · simp only [loadInstrumentTarget, firstContainingChild_eq_find, Node.children]
    cases b.instruments.childList.toList.find? (fun m => pyIn (pyLower name) (pyLower m.name)) with
    | some item => rfl
    | none =>
      cases findItemByName b.instruments name with
      | some it => rfl
      | none => rfl
  · cases hf : findItemByName b.drums name with
    | some item => simp [loadDrumKitNamed, hf]
    | none => simp [loadDrumKitNamed, hf]
  · cases hf : findItemByName b.user_library name with
    | some item =>
      cases hl : getFirstLoadableChild item with
      | some l => simp [loadUserPresetTarget, hf, hl, Option.orElse]
      | none => simp [loadUserPresetTarget, hf, hl, Option.orElse]
    | none => simp [loadUserPresetTarget, hf]

/-- Claim C10: `_load_drum_kit` with a name argument loads the exactly-named
node only if that node is itself loadable; it never resolves through the
first loadable descendant, so a non-loadable container — even one with
loadable descendants — produces a warning, no host load, and a void
return. -/
theorem C10_theorem (b : Browser) (name : String) :
    (∀ it, findItemByName b.drums name = some it → it.is_loadable = true →
      loadDrumKitNamed b name = some it) ∧
    (∀ it, findItemByName b.drums name = some it → it.is_loadable = false →
      loadDrumKitNamed b name = none) ∧
    (findItemByName b.drums name = none → loadDrumKitNamed b name = none) := by
  refine ⟨?_, ?_, ?_⟩
  · intro it hf hl
    simp [loadDrumKitNamed, hf, hl]
  · intro it hf hl
    simp [loadDrumKitNamed, hf, hl]
  · intro h
    simp [loadDrumKitNamed, h]

/-- Witness for C10: the non-loadable "808" folder has a loadable child, yet
the named drum-kit load performs no host load. -/
theorem C10_witness :
    loadDrumKitNamed bC10 "808" = none ∧ (getFirstLoadableChild cexC10kit).isSome = true :=
  ⟨(C10_theorem bC10 "808").2.1 cexC10kit (by decide) (by decide), by decide⟩
